import Mathlib

/-!
Verification development for the manuscript-catalogue-api query-translation layer.

The Python sources are shallowly embedded here:
* `Frontend` models `src/frontend/main.py` (the query compiler `translate_params`,
  the date algebra `generate_datestring`, `get_core_name`, `delete_resource`).
* `Api` models `src/main.py` (the `/items` collection-sort rewrite in `get_items`,
  the `original_sort` restoration in `get_request`, `get_core_name`, `delete_resource`).

Modelling conventions: HTTP query parameters are strings or lists of strings
(`Value`); Python dicts are association lists with first-match lookup
(inputs built by Python's `**kwargs` never contain duplicate keys); Python
exceptions are modelled by `Except PyErr`; the specific regular expressions of
the source are implemented directly as character-list functions, including the
CPython behaviour that `$` also matches just before a final newline and that
`.` does not match a newline.
-/

/-- A Python query-parameter value: a string or a list of strings. -/
inductive Value where
  | vs : String → Value
  | vl : List String → Value
deriving DecidableEq, Repr

/-- Python truthiness for a parameter value: empty strings and empty lists are falsy. -/
def Value.truthy : Value → Bool
  | .vs s => if s = "" then false else true
  | .vl [] => false
  | .vl (_ :: _) => true

/-- Truthiness of an optional value (`None` is falsy). -/
def truthyOpt : Option Value → Bool
  | none => false
  | some v => v.truthy

/-- Truthiness of an optional string (`None` and `''` are falsy). -/
def strOptTruthy : Option String → Bool
  | none => false
  | some s => if s = "" then false else true

/-- A value stored in the compiled query map: an int, a string, or a list of strings. -/
inductive SolrVal where
  | i : Int → SolrVal
  | s : String → SolrVal
  | l : List String → SolrVal
deriving DecidableEq, Repr

/-- Python exceptions that the embedded code can raise. -/
inductive PyErr where
  | typeError
  | valueError
  | attributeError
  | indexError
deriving DecidableEq, Repr

/-- Whether an `Except` result is a success. -/
def exceptOk {ε α : Type} : Except ε α → Bool
  | .ok _ => true
  | .error _ => false

/-- Python dict lookup on an association list (first match wins). -/
def dictGet {α : Type} : List (String × α) → String → Option α
  | [], _ => none
  | (k', v) :: rest, k => if k' = k then some v else dictGet rest k

/-- Python dict assignment `d[k] = v`: update in place if present, else append. -/
def dictSet {α : Type} : List (String × α) → String → α → List (String × α)
  | [], k, v => [(k, v)]
  | (k', v') :: rest, k, v =>
    if k' = k then (k, v) :: rest else (k', v') :: dictSet rest k v

/-- Python `d.pop(k, None)`: remove the key if present. -/
def dictPop {α : Type} : List (String × α) → String → List (String × α)
  | [], _ => []
  | (k', v) :: rest, k => if k' = k then dictPop rest k else (k', v) :: dictPop rest k

/-- Join a list of strings with a separator (Python `sep.join(xs)`). -/
def joinSep (sep : String) : List String → String
  | [] => ""
  | [x] => x
  | x :: y :: xs => x ++ sep ++ joinSep sep (y :: xs)

/-- The whitespace characters of Python's `str.strip` / `\s` (ASCII range). -/
def pyIsSpace (c : Char) : Bool :=
  c = ' ' || c = '\t' || c = '\n' || c = '\r' || c = '\x0b' || c = '\x0c'

/-- Python `str.strip()`. -/
def pyStrip (s : String) : String :=
  String.mk (((s.data.dropWhile pyIsSpace).reverse.dropWhile pyIsSpace).reverse)

/-- Python `str.zfill(2)`: left-pad with zeros to width two, keeping a sign prefix. -/
def zfill2 (s : String) : String :=
  if 2 ≤ s.data.length then s
  else
    match s.data with
    | [] => "00"
    | c :: _ => if c = '+' || c = '-' then String.mk [c, '0'] else "0" ++ s

/-- Escaping of one character inside Python's `repr` of a string. -/
def pyEscapeChar (q c : Char) : List Char :=
  if c = '\\' then ['\\', '\\']
  else if c = q then ['\\', q]
  else if c = '\n' then ['\\', 'n']
  else if c = '\r' then ['\\', 'r']
  else if c = '\t' then ['\\', 't']
  else [c]

/-- Python `repr` of a string (printable characters; double quotes are chosen when
the string contains a single quote but no double quote). -/
def pyReprStr (s : String) : String :=
  let q : Char := if s.data.contains '\'' && !(s.data.contains '"') then '"' else '\''
  String.mk ([q] ++ s.data.foldr (fun c acc => pyEscapeChar q c ++ acc) [] ++ [q])

/-- Python `str` of a list of strings, e.g. `str(['a']) = "['a']"`. -/
def pyListRepr (l : List String) : String :=
  "[" ++ joinSep ", " (l.map pyReprStr) ++ "]"

/-- Python `str()` applied to a parameter value. -/
def pyStr : Value → String
  | .vs s => s
  | .vl l => pyListRepr l

/-- The source's `stringify`: lists are joined with spaces, strings pass through. -/
def stringify : Value → String
  | .vl l => joinSep " " l
  | .vs s => s

/-- The source's `listify`: wrap a string, pass a list through. -/
def listify : Value → List String
  | .vs s => [s]
  | .vl l => l

/-- Lexicographic (code-point) comparison of strings, as Python compares strings. -/
def charListLe : List Char → List Char → Bool
  | [], _ => true
  | _ :: _, [] => false
  | a :: as, b :: bs => if a < b then true else if a = b then charListLe as bs else false

/-- Sorted insertion for `pySortStrings`. -/
def insertStr (a : String) : List String → List String
  | [] => [a]
  | b :: bs => if charListLe a.data b.data then a :: b :: bs else b :: insertStr a bs

/-- Python `list.sort()` on a list of strings (ascending code-point order). -/
def pySortStrings : List String → List String
  | [] => []
  | x :: xs => insertStr x (pySortStrings xs)

/-- Core matcher of `re.sub(r'^"(.+?)"$', ...)`: a full string of the form
`"…"` with a nonempty, newline-free interior. Returns the interior. -/
def quoteStripCore : List Char → Option (List Char)
  | '"' :: rest =>
    if 2 ≤ rest.length ∧ rest.getLast? = some '"' ∧ ¬ rest.dropLast.contains '\n' then
      some rest.dropLast
    else none
  | _ => none

/-- The source's `re.sub(r'^"(.+?)"$', r'\1', s)`: strip one pair of surrounding
double quotes; `$` also matches just before one final newline. -/
def stripQuotes (s : String) : String :=
  match quoteStripCore s.data with
  | some mid => String.mk mid
  | none =>
    match s.data.getLast? with
    | some '\n' =>
      match quoteStripCore s.data.dropLast with
      | some mid => String.mk mid ++ "\n"
      | none => s
    | _ => s

/-- Value of a decimal digit character. -/
def digitVal (c : Char) : Nat := c.toNat - 48

/-- Digits with optional single underscores between digits (Python `int` grammar). -/
def digitsToNatAux : Nat → List Char → Option Nat
  | acc, [] => some acc
  | acc, c :: cs =>
    if c.isDigit then digitsToNatAux (acc * 10 + digitVal c) cs
    else if c = '_' then
      match cs with
      | d :: _ => if d.isDigit then digitsToNatAux acc cs else none
      | [] => none
    else none

/-- Parse a nonempty digit sequence (underscore separators allowed). -/
def digitsToNat : List Char → Option Nat
  | [] => none
  | c :: cs => if c.isDigit then digitsToNatAux 0 (c :: cs) else none

/-- Python `int(s)` on a string: optional surrounding whitespace, optional sign,
decimal digits (non-decimal and non-ASCII digit forms are not modelled). -/
def pyInt (s : String) : Option Int :=
  match (pyStrip s).data with
  | '+' :: ds => (digitsToNat ds).map (fun n => (n : Int))
  | '-' :: ds => (digitsToNat ds).map (fun n => -(n : Int))
  | ds => (digitsToNat ds).map (fun n => (n : Int))

/-- Core matcher of `^f[0-9]+-date$`. -/
def fDateCore : List Char → Bool
  | 'f' :: rest =>
    let ds := rest.takeWhile Char.isDigit
    !ds.isEmpty && decide (rest.drop ds.length = "-date".data)
  | _ => false

/-- `re.match(r'^f[0-9]+-date$', name)` (with `$` also matching before a final newline). -/
def matchFDateName (name : String) : Bool :=
  fDateCore name.data ||
    (decide (name.data.getLast? = some '\n') && fDateCore name.data.dropLast)

/-- Core of `re.sub(r'^f[0-9]+-(.+?)$', r'facet-\1', name)`: the captured group. -/
def legacyCore : List Char → Option (List Char)
  | 'f' :: rest =>
    let ds := rest.takeWhile Char.isDigit
    if ds.isEmpty then none
    else
      match rest.drop ds.length with
      | '-' :: cap => if ¬ cap.isEmpty ∧ ¬ cap.contains '\n' then some cap else none
      | _ => none
  | _ => none

/-- The source's legacy facet-name rewrite `f<digits>-<name> → facet-<name>`
(identity when the pattern does not match). -/
def legacyFacetRewrite (name : String) : String :=
  match legacyCore name.data with
  | some cap => "facet-" ++ String.mk cap
  | none =>
    match name.data.getLast? with
    | some '\n' =>
      match legacyCore name.data.dropLast with
      | some cap => "facet-" ++ String.mk cap ++ "\n"
      | none => name
    | _ => name

/-- Core matcher of `^(facet|s)-.+?$`. -/
def facetSCore (cs : List Char) : Bool :=
  ("facet-".data.isPrefixOf cs && !(cs.drop 6).isEmpty && !(cs.drop 6).contains '\n')
  || ("s-".data.isPrefixOf cs && !(cs.drop 2).isEmpty && !(cs.drop 2).contains '\n')

/-- `re.match(r'^(facet|s)-.+?$', name)` (with `$` also matching before a final newline). -/
def matchFacetOrS (name : String) : Bool :=
  facetSCore name.data ||
    (decide (name.data.getLast? = some '\n') && facetSCore name.data.dropLast)

/-- Scan for `t` as a contiguous segment of the second list. -/
def infixScan (t : List Char) : List Char → Bool
  | [] => t.isEmpty
  | c :: cs => t.isPrefixOf (c :: cs) || infixScan t cs

/-- Python `t in u` for strings: contiguous substring containment. -/
def pyInStr (t u : String) : Bool := infixScan t.data u.data

/-- Split a character list on every occurrence of `::` (Python `s.split('::')`). -/
def splitDCAux : List Char → List Char → List (List Char)
  | [], acc => [acc.reverse]
  | [c], acc => [(c :: acc).reverse]
  | c1 :: c2 :: cs, acc =>
    if c1 = ':' ∧ c2 = ':' then acc.reverse :: splitDCAux cs []
    else splitDCAux (c2 :: cs) (c1 :: acc)

/-- Python `s.split('::')`. -/
def pySplitDC (s : String) : List String :=
  (splitDCAux s.data []).map String.mk

/-- `re.sub(r's$', '', s)`: remove one trailing `s` (CPython's `$` also matches
just before one final newline). -/
def stripTrailingS (s : String) : String :=
  match s.data.getLast? with
  | some 's' => String.mk s.data.dropLast
  | some '\n' =>
    match s.data.dropLast.getLast? with
    | some 's' => String.mk (s.data.dropLast.dropLast ++ ['\n'])
    | _ => s
  | _ => s

/-- One hex digit, for percent-decoding. -/
def hexVal (c : Char) : Option Nat :=
  if c.isDigit then some (c.toNat - 48)
  else if 'a' ≤ c ∧ c ≤ 'f' then some (c.toNat - 87)
  else if 'A' ≤ c ∧ c ≤ 'F' then some (c.toNat - 55)
  else none

/-- Percent-decoding scan of `urllib.parse.unquote_plus` (ASCII bytes; multi-byte
UTF-8 sequences are left undecoded in this model). -/
def unquoteAux : List Char → List Char
  | [] => []
  | '+' :: cs => ' ' :: unquoteAux cs
  | '%' :: c1 :: c2 :: cs =>
    match hexVal c1, hexVal c2 with
    | some hi, some lo =>
      let n := hi * 16 + lo
      if n < 128 then Char.ofNat n :: unquoteAux cs
      else '%' :: c1 :: c2 :: unquoteAux cs
    | _, _ => '%' :: unquoteAux (c1 :: c2 :: cs)
  | c :: cs => c :: unquoteAux cs

/-- Python `urllib.parse.unquote_plus` (ASCII model). -/
def pyUnquotePlus (s : String) : String := String.mk (unquoteAux s.data)

/-- A backend status code: the two source variants use an int (500) and a string ('999'). -/
inductive StatusCode where
  | intCode : Int → StatusCode
  | strCode : String → StatusCode
deriving DecidableEq, Repr

/-- Outcome of `delete_resource`: either a POST to the backend is issued (whose
status the backend chooses), or the module's internal error code is returned
with no request at all. -/
inductive DeleteResult where
  | backendCall (core : String) (deleteQuery : String) : DeleteResult
  | internalError (code : StatusCode) : DeleteResult
deriving DecidableEq, Repr

/-- `re.search(r'^…')` / `re.compile('^…').match`: prefix test. -/
def strLeads (p s : String) : Bool := p.data.isPrefixOf s.data

namespace Frontend

def ITEM_CORE : String := "mscat"

def COLLECTION_JSON_CORE : String := "collection"

def INTERNAL_ERROR_STATUS_CODE : Int := 500

def ALLOWED_FACETS : List String :=
  ["author_sm", "editor_sm", "lang_sm", "ms_date_sm", "ms_datecert_s", "ms_origin_sm",
   "wk_subjects_sm", "ms_materials_sm", "ms_decotype_sm", "ms_music_b", "ms_bindingdate_sm",
   "ms_digitized_s", "ms_repository_s", "ms_collection_s"]

def get_core_name (resource_type : String) : String :=
  let resource_type_trimmed := stripTrailingS resource_type
  if resource_type_trimmed = "item" then ITEM_CORE
  else if resource_type_trimmed = "collection" then COLLECTION_JSON_CORE
  else ""

def delete_resource (resource_type file_id : String) : DeleteResult :=
  let delete_query := "id:\"" ++ pyUnquotePlus file_id ++ "\""
  let core := get_core_name resource_type
  if core = "" then DeleteResult.internalError (StatusCode.intCode INTERNAL_ERROR_STATUS_CODE)
  else DeleteResult.backendCall core delete_query

/-- The source's `translation_key` mapping (defined in `translate_params`, unused by it). -/
def translation_key : List (String × String) :=
  [("transcribed", "content_textual-content"),
   ("footnote", "content_footnotes"),
   ("summary", "content_summary")]

def solr_delete : List String := ["text", "keyword", "sectionType", "search-date-type"]

def solr_fields : List String :=
  ["_text_", "content_textual-content", "content_footnotes", "content_summary"]

def remap_fields : List String := ["day", "month", "dateRange"]

/-- The source's `get_obj_property`. -/
def get_obj_property (key : String) (param : List (String × Value)) : Option Value :=
  dictGet param key

/-- The source's `generate_datestring` (the date algebra's `buildDateToken`):
components that are not `None` are `str()`-ed, `zfill(2)`-padded and joined with `-`. -/
def generate_datestring (year month day : Option Value) : Option String :=
  if truthyOpt year then
    if !(truthyOpt day && !(truthyOpt month)) then
      some (joinSep "-" (([year, month, day].filterMap id).map (fun i => zfill2 (pyStr i))))
    else none
  else none

/-- A date filter clause `{!field f=dateRange op=<pred>}<result>`. -/
def dateClause (pred result : String) : String :=
  "\x7b!field f=dateRange op=" ++ pred ++ "\x7d" ++ result

/-- The date-range extraction block of `translate_params` (lines 126-153 of the
source): produces the date filter clauses appended to `fq`, or raises the
`TypeError` of `search_date_type in 'after'` when `search_date_type` is `None`
or a list at that point. -/
def datePhase (date_min date_max : Option String) (search_date_type : Option Value) :
    Except PyErr (List String) :=
  if strOptTruthy date_min ∨ search_date_type = some (Value.vs "between") then
    if strOptTruthy date_max ∨ search_date_type = some (Value.vs "between") then
      let date_max_final := if strOptTruthy date_max then date_max.getD "" else "2009-02-12"
      let date_min_final := if strOptTruthy date_min then date_min.getD "" else "1609-02-12"
      let result := "[" ++ date_min_final ++ " TO " ++ date_max_final ++ "]"
      .ok (if result = "" then [] else [dateClause "Intersects" result])
    else
      match search_date_type with
      | some (Value.vs t) =>
        if pyInStr t "after" then
          let result := "[" ++ date_min.getD "" ++ " TO 2009-02-12]"
          .ok (if result = "" then [] else [dateClause "Intersects" result])
        else if t = "before" then
          let result := "[-3000-01-01 TO " ++ date_min.getD "" ++ "]"
          .ok (if result = "" then [] else [dateClause "Intersects" result])
        else
          let result := date_min.getD ""
          .ok (if result = "" then [] else [dateClause "Within" result])
      | _ => .error PyErr.typeError
  else .ok []

/-- Mutable state of `translate_params`' main loop: the `solr_params`, `q`, `fq`,
`filter` accumulators and the loop-scope `solr_name` variable. -/
structure LoopState where
  solr_params : List (String × SolrVal)
  q : List String
  fq : List String
  filt : List (String × String)
  solr_name : String
deriving DecidableEq, Repr

def fields : List String := ["facet-year", "facet-year-month", "facet-year-month-day"]

def dateHintKey (field : String) : String := "f." ++ field ++ ".facet.contains"

/-- The `for index, field in enumerate(fields)` hint loop for one date value. -/
def dateHintsAux (date : String) (date_parts : List String) (num_parts : Nat) :
    List (Nat × String) → List (String × String) → List (String × String)
  | [], filt => filt
  | (index, field) :: rest, filt =>
    let v :=
      if num_parts - 1 ≤ index then stripQuotes date
      else stripQuotes (joinSep "::" (date_parts.take (index + 1)))
    dateHintsAux date date_parts num_parts rest (dictSet filt (dateHintKey field) v)

/-- Processing of one value of an `f<digits>-date` parameter. -/
def processDateValue (st : LoopState) (date0 : String) : LoopState :=
  let date := stripQuotes date0
  let date_parts := pySplitDC date
  let num_parts := date_parts.length
  let sn :=
    if num_parts = 1 then "facet-year"
    else if num_parts = 2 then "facet-year-month"
    else if num_parts = 3 then "facet-year-month-day"
    else st.solr_name
  { st with
    solr_name := sn,
    filt := dateHintsAux date date_parts num_parts fields.enum st.filt,
    fq := st.fq ++ [sn ++ ":\"" ++ stripQuotes date ++ "\""] }

/-- The `for date in val_list` loop over (sorted) `f<digits>-date` values. -/
def processDateValues (st : LoopState) : List String → LoopState
  | [] => st
  | d :: ds => processDateValues (processDateValue st d) ds

/-- The `name == 'sort'` branch body. -/
def sortAssign (st : LoopState) (sort_raw : String) : LoopState :=
  let sort_val := if sort_raw = "title" ∨ sort_raw = "date" then sort_raw else "score"
  let sort_order := if sort_val = "score" then "desc" else "asc"
  { st with solr_params := dictSet st.solr_params "sort" (SolrVal.s (sort_val ++ " " ++ sort_order)) }

/-- One iteration of `translate_params`' classification loop (lines 156-219 of the
source), for a parameter `name` with (truthy) `value`. -/
def processParam (st : LoopState) (name : String) (value : Value) : Except PyErr LoopState :=
  if name ∈ remap_fields then
    .ok { st with q := st.q ++ [name ++ ":(" ++ stringify value ++ ")"] }
  else if name = "keyword" ∨ name = "text" then
    .ok { st with q := st.q ++ ["(" ++ stringify value ++ ")"] }
  else if matchFDateName name then
    match value with
    | .vs _ => .error PyErr.attributeError
    | .vl l => .ok (processDateValues st (pySortStrings l))
  else if name ∈ ALLOWED_FACETS then
    let sn := legacyFacetRewrite name
    .ok { st with
          solr_name := sn,
          fq := st.fq ++ (listify value).map (fun x => sn ++ ":\"" ++ stripQuotes x ++ "\"") }
  else if matchFacetOrS name then
    match value with
    | .vl _ => .error PyErr.typeError
    | .vs v => .ok { st with fq := st.fq ++ [name ++ ":\"" ++ stripQuotes v ++ "\""] }
  else if name = "page" then
    match value with
    | .vl _ => .error PyErr.typeError
    | .vs pstr =>
      match pyInt pstr with
      | none => .error PyErr.valueError
      | some page => .ok { st with solr_params := dictSet st.solr_params "start" (SolrVal.i ((page - 1) * 20)) }
  else if name = "sort" then
    match value with
    | .vs s =>
      match s.data with
      | [] => .error PyErr.indexError
      | c :: _ => .ok (sortAssign st (String.mk [c]))
    | .vl [] => .error PyErr.indexError
    | .vl (x :: _) => .ok (sortAssign st x)
  else if name = "rows" then .ok st
  else .ok { st with q := st.q ++ [name ++ ":(" ++ stringify value ++ ")"] }

/-- The `for name in set_params.keys()` loop of `translate_params`. -/
def processParams (st : LoopState) : List (String × Value) → Except PyErr LoopState
  | [] => .ok st
  | (name, value) :: rest =>
    if value.truthy then
      match processParam st name value with
      | .ok st2 => processParams st2 rest
      | .error e => .error e
    else processParams st rest

/-- Final assembly of `translate_params` (lines 221-238 of the source): store
`fq` and `q`, normalise suspected wildcard queries, merge the facet-hint map
and delete the reserved keys. -/
def finalize (st : LoopState) : List (String × SolrVal) :=
  let sp1 := dictSet st.solr_params "fq" (SolrVal.l st.fq)
  let final_q0 := joinSep " " st.q
  let final_q := if final_q0 = "['*']" ∨ final_q0 = "['']" then "*" else final_q0
  let sp2 := dictSet sp1 "q" (SolrVal.s final_q)
  let sp3 :=
    if dictGet sp2 "q" = some (SolrVal.s "['*']") ∨ dictGet sp2 "q" = some (SolrVal.s "['']") then
      dictSet sp2 "q" (SolrVal.s "*")
    else sp2
  let sp4 := st.filt.foldl (fun d kv => dictSet d kv.1 (SolrVal.s kv.2)) sp3
  (solr_delete ++ solr_fields).foldl (fun d k => dictPop d k) sp4

/-- The `set_params` comprehension: drop parameters with falsy values. -/
def setParamsOf (url_params : List (String × Value)) : List (String × Value) :=
  url_params.filter (fun kv => kv.2.truthy)

/-- `date_min` as computed by `translate_params`. -/
def dateMinOf (set_params : List (String × Value)) : Option String :=
  generate_datestring (get_obj_property "year" set_params)
    (get_obj_property "month" set_params) (get_obj_property "day" set_params)

/-- `date_max` as computed by `translate_params`. -/
def dateMaxOf (set_params : List (String × Value)) : Option String :=
  generate_datestring (get_obj_property "year-max" set_params)
    (get_obj_property "month-max" set_params) (get_obj_property "day-max" set_params)

/-- Iterated `set_params.pop(x, None)`. -/
def popAll (d : List (String × Value)) : List String → List (String × Value)
  | [] => d
  | k :: ks => popAll (dictPop d k) ks

def date_param_names : List String :=
  ["year", "month", "day", "year-max", "month-max", "day-max", "search-date-type"]

/-- The date-parameter pops of `translate_params`: all seven date parameters are
popped when the date block fired, otherwise only `search-date-type`. -/
def setParams2Of (set_params : List (String × Value)) (date_min : Option String)
    (search_date_type : Option Value) : List (String × Value) :=
  if strOptTruthy date_min ∨ search_date_type = some (Value.vs "between") then
    popAll set_params date_param_names
  else dictPop set_params "search-date-type"

/-- The source's `translate_params` (src/frontend/main.py lines 94-238).
The `resource_type` argument is accepted and, as in the source, never used. -/
def translate_params (resource_type : String) (url_params : List (String × Value)) :
    Except PyErr (List (String × SolrVal)) :=
  let set_params := setParamsOf url_params
  let date_min := dateMinOf set_params
  let date_max := dateMaxOf set_params
  let search_date_type := get_obj_property "search-date-type" set_params
  match datePhase date_min date_max search_date_type with
  | .error e => .error e
  | .ok fq0 =>
    let set_params2 := setParams2Of set_params date_min search_date_type
    match processParams (LoopState.mk [] [] fq0 [] "") set_params2 with
    | .error e => .error e
    | .ok st => .ok (finalize st)

end Frontend

namespace Api

def ITEM_CORE : String := "cdcp"

def COLLECTION_JSON_CORE : String := "collection"

def INTERNAL_ERROR_STATUS_CODE : String := "999"

def get_core_name (resource_type : String) : String :=
  let resource_type_trimmed := stripTrailingS resource_type
  if resource_type_trimmed = "item" then ITEM_CORE
  else if resource_type_trimmed = "collection" then COLLECTION_JSON_CORE
  else ""

def delete_resource (resource_type file_id : String) : DeleteResult :=
  let delete_query := "fileID:" ++ file_id
  let core := get_core_name resource_type
  if core = "" then DeleteResult.internalError (StatusCode.strCode INTERNAL_ERROR_STATUS_CODE)
  else DeleteResult.backendCall core delete_query

/-- `\s*` followed by `asc` or `desc`. -/
def dirFollows (cs : List Char) : Bool :=
  let rest := cs.dropWhile pyIsSpace
  "asc".data.isPrefixOf rest || "desc".data.isPrefixOf rest

/-- `re.search(r'collection_sort\s*(asc|desc)', s)`: the pattern occurs somewhere. -/
def hasCollectionSortDir : List Char → Bool
  | [] => false
  | c :: cs =>
    ("collection_sort".data.isPrefixOf (c :: cs) && dirFollows ((c :: cs).drop 15))
    || hasCollectionSortDir cs

/-- Last occurrence of `collection_sort (asc|desc)` in a scan (the greedy `^.*`
of the substitution pattern selects the rightmost occurrence). -/
def lastSortDir : List Char → Option String → Option String
  | [], acc => acc
  | c :: cs, acc =>
    let here : Option String :=
      if "collection_sort asc".data.isPrefixOf (c :: cs) then some "asc"
      else if "collection_sort desc".data.isPrefixOf (c :: cs) then some "desc"
      else none
    lastSortDir cs (match here with | some d => some d | none => acc)

/-- `re.sub(r'^.*collection_sort (asc|desc).*$', r'\1', s)`: when the whole string
(up to one final newline, with no other newline) contains the pattern, the string
is replaced by the direction of its rightmost occurrence; otherwise unchanged. -/
def reSubSortDirection (s : String) : String :=
  let hasNL := s.data.getLast? = some '\n'
  let body := if hasNL then s.data.dropLast else s.data
  if body.contains '\n' then s
  else
    match lastSortDir body none with
    | some d => if hasNL then d ++ "\n" else d
    | none => s

/-- `re.sub(r'^collection:', '', s)`. -/
def reSubCollectionColon (s : String) : String :=
  if "collection:".data.isPrefixOf s.data then String.mk (s.data.drop 11) else s

/-- `re.sub(r'\s', '_', s)`: replace every whitespace character with an underscore. -/
def pyReplaceSpace (s : String) : String :=
  String.mk (s.data.map (fun c => if pyIsSpace c then '_' else c))

/-- The parameter record `get_items` passes to `get_request`. -/
structure ItemsParams where
  q : Option String
  fq : List String
  sort : Option String
  start : Option String
  rows : Int
  original_sort : Option String
deriving DecidableEq, Repr

/-- The collection-sort rewrite of `get_items` (src/main.py lines 132-144),
given the first `collection:`-filter of `fq`. Returns the outgoing sort and
`original_sort`. -/
def sortCalc (sort : Option String) (collection_facet : Option String) :
    Option String × Option String :=
  match sort with
  | none => (none, none)
  | some s =>
    if s ≠ "" ∧ strLeads "collection_sort" s then
      match collection_facet with
      | none => (some s, some s)
      | some cf =>
        if s ≠ "" ∧ hasCollectionSortDir (pyStrip s).data then
          let collection_name_raw := reSubCollectionColon cf
          let collection_name := pyReplaceSpace collection_name_raw
          let sort_field := collection_name ++ "_sort"
          let sort_direction := reSubSortDirection s
          (some (sort_field ++ " " ++ sort_direction), some s)
        else (some s, some s)
    else (some s, none)

/-- `rows if rows in [8, 20] else 20`. -/
def rowsFinal (rows : Option Int) : Int :=
  match rows with
  | some r => if r = 8 ∨ r = 20 then r else 20
  | none => 20

/-- The source's `get_items` (src/main.py lines 126-152) up to the backend call:
the parameters it passes to `get_request`. Iterating `fq` when it is absent
(`None`) raises `TypeError`, as `list(filter(r.match, fq))` does in Python. -/
def get_items (q : Option (List String)) (fq : Option (List String)) (sort : Option String)
    (start : Option String) (rows : Option Int) : Except PyErr ItemsParams :=
  match fq with
  | none => .error PyErr.typeError
  | some fqL =>
    let fq_filtered := fqL.filter (fun c => strLeads "collection:" c)
    let collection_facet := fq_filtered.head?
    let sres := sortCalc sort collection_facet
    let q_final := q.map (fun l => joinSep " AND " l)
    .ok (ItemsParams.mk q_final fqL sres.1 start (rowsFinal rows) sres.2)

/-- The `original_sort` restoration of `get_request` (src/main.py lines 69-70):
when the kwargs carry an `original_sort` key and the backend's reported params
contain `sort`, the reported `sort` is overwritten with the original value. -/
def restore_reported_sort (kwargs_original_sort : Option (Option String))
    (reported : List (String × Option String)) : List (String × Option String) :=
  match kwargs_original_sort with
  | some os => if (dictGet reported "sort").isSome then dictSet reported "sort" os else reported
  | none => reported

end Api

/-- Modelled from the spec (amended): the date algebra's `buildDateToken` contract.
A token is produced exactly when the year is present and truthy and it is not the
case that the day is truthy while the month is absent or falsy; every component
that is present (even a falsy one, when a token is produced) is rendered with
`str`, zero-padded to two digits — the year included — and joined with `-`. -/
def buildDateTokenSpec (year month day : Option Value) : Option String :=
  match year with
  | none => none
  | some yv =>
    if yv.truthy then
      let dayBlocked : Bool :=
        match day with
        | some dv => dv.truthy && !(match month with | some mv => mv.truthy | none => false)
        | none => false
      if dayBlocked then none
      else
        let comps : List Value :=
          [some yv, month, day].foldr (fun o acc => match o with | some v => v :: acc | none => acc) []
        some (joinSep "-" (comps.map (fun v => zfill2 (pyStr v))))
    else none

/-- Per-parameter condition under which the classification loop of
`translate_params` cannot raise: `f<digits>-date` values must be lists,
`facet-`/`s-` values must be single strings, and `page` must be a single string
that parses as an integer. -/
def safeParam (name : String) (value : Value) : Bool :=
  if name ∈ Frontend.remap_fields then true
  else if name = "keyword" ∨ name = "text" then true
  else if matchFDateName name then (match value with | .vl _ => true | .vs _ => false)
  else if name ∈ Frontend.ALLOWED_FACETS then true
  else if matchFacetOrS name then (match value with | .vs _ => true | .vl _ => false)
  else if name = "page" then (match value with | .vs s => (pyInt s).isSome | .vl _ => false)
  else true

/-- Whether an optional value is a single string. -/
def sdtIsStr : Option Value → Bool
  | some (Value.vs _) => true
  | _ => false

/-- Condition under which the date block of `translate_params` cannot raise:
whenever a min token but no max token is produced and `search-date-type` is not
`between`, `search-date-type` must be present as a single string. -/
def safeDate (url_params : List (String × Value)) : Bool :=
  let sp := Frontend.setParamsOf url_params
  let sdt := Frontend.get_obj_property "search-date-type" sp
  if strOptTruthy (Frontend.dateMinOf sp) ∧ ¬ strOptTruthy (Frontend.dateMaxOf sp)
      ∧ ¬ (sdt = some (Value.vs "between")) then
    sdtIsStr sdt
  else true

/-- Whether a filter clause is a date filter clause (as produced by the date block). -/
def isDateClause (c : String) : Bool := "\x7b!field f=dateRange".data.isPrefixOf c.data

/-- The first character of the string is not an opening brace. -/
def braceFree (s : String) : Bool :=
  match s.data with
  | [] => true
  | c :: _ => decide (c ≠ '\x7b')

/-- All keys of the facet-hint accumulator are hint keys for the three date levels. -/
def filtKeysOk (l : List (String × String)) : Prop :=
  ∀ kv ∈ l, kv.1 = Frontend.dateHintKey "facet-year"
    ∨ kv.1 = Frontend.dateHintKey "facet-year-month"
    ∨ kv.1 = Frontend.dateHintKey "facet-year-month-day"

/-- Invariant carried across the classification loop: the facet-hint keys stay
date-hint keys, `solr_name` never starts with a brace, and `fq` only grows by
clauses that are not date filter clauses. -/
def stepOk (st st' : Frontend.LoopState) : Prop :=
  (filtKeysOk st.filt → filtKeysOk st'.filt) ∧
  (braceFree st.solr_name = true →
    braceFree st'.solr_name = true ∧
    ∃ extra, st'.fq = st.fq ++ extra ∧ ∀ c ∈ extra, isDateClause c = false)

/-- The date filter clauses of a compiled parameter map's `fq` entry. -/
def dateFqClauses (m : List (String × SolrVal)) : List String :=
  match dictGet m "fq" with
  | some (SolrVal.l l) => l.filter isDateClause
  | _ => []

section DictLemmas

theorem dictGet_dictSet {α : Type} (d : List (String × α)) (k k' : String) (v : α) :
    dictGet (dictSet d k v) k' = if k = k' then some v else dictGet d k' := by
  induction d with
  | nil => simp [dictSet, dictGet]
  | cons hd tl ih =>
    obtain ⟨k0, v0⟩ := hd
    by_cases h : k0 = k
    · subst h
      by_cases h2 : k0 = k' <;> simp [dictSet, dictGet, h2]
    · by_cases h2 : k0 = k'
      · subst h2
        have hkk : ¬ k = k0 := fun hc => h hc.symm
        simp [dictSet, dictGet, h, hkk]
      · simp [dictSet, dictGet, h, h2, ih]

theorem dictGet_dictPop {α : Type} (d : List (String × α)) (k k' : String) :
    dictGet (dictPop d k) k' = if k = k' then none else dictGet d k' := by
  induction d with
  | nil => simp [dictPop, dictGet]
  | cons hd tl ih =>
    obtain ⟨k0, v0⟩ := hd
    by_cases h : k0 = k
    · subst h
      by_cases h2 : k0 = k'
      · subst h2; simp [dictPop, dictGet, ih]
      · simp [dictPop, dictGet, h2, ih]
    · by_cases h2 : k0 = k'
      · subst h2
        have hkk : ¬ k = k0 := fun hc => h hc.symm
        simp [dictPop, dictGet, h, hkk]
      · simp [dictPop, dictGet, h, h2, ih]

theorem isSome_dictGet_dictSet {α : Type} (d : List (String × α)) (k k' : String) (v : α)
    (h : (dictGet d k').isSome = true) : (dictGet (dictSet d k v) k').isSome = true := by
  rw [dictGet_dictSet]
  by_cases hk : k = k' <;> simp [hk, h]

theorem isSome_dictGet_setFold (L : List (String × String)) (d : List (String × SolrVal))
    (k : String) (h : (dictGet d k).isSome = true) :
    (dictGet (L.foldl (fun d kv => dictSet d kv.1 (SolrVal.s kv.2)) d) k).isSome = true := by
  induction L generalizing d with
  | nil => simpa using h
  | cons hd tl ih => exact ih _ (isSome_dictGet_dictSet _ _ _ _ h)

theorem dictGet_setFold_ne (L : List (String × String)) (d : List (String × SolrVal))
    (k : String) (h : ∀ kv ∈ L, kv.1 ≠ k) :
    dictGet (L.foldl (fun d kv => dictSet d kv.1 (SolrVal.s kv.2)) d) k = dictGet d k := by
  induction L generalizing d with
  | nil => rfl
  | cons hd tl ih =>
    have h1 : hd.1 ≠ k := h hd (List.mem_cons_self _ _)
    have h2 : ∀ kv ∈ tl, kv.1 ≠ k := fun kv hm => h kv (List.mem_cons_of_mem _ hm)
    rw [List.foldl_cons, ih _ h2, dictGet_dictSet]
    simp [h1]

theorem dictGet_popFold (L : List String) (d : List (String × SolrVal)) (k : String) :
    dictGet (L.foldl (fun d k => dictPop d k) d) k
      = if k ∈ L then none else dictGet d k := by
  induction L generalizing d with
  | nil => simp
  | cons hd tl ih =>
    rw [List.foldl_cons, ih, dictGet_dictPop]
    by_cases h1 : k ∈ tl
    · simp [h1, List.mem_cons]
    · by_cases h2 : hd = k
      · subst h2; simp [h1, List.mem_cons]
      · have h2' : ¬ k = hd := fun hc => h2 hc.symm
        simp [h1, h2, h2', List.mem_cons]

theorem mem_dictSet {α : Type} (d : List (String × α)) (k : String) (v : α) (kv : String × α)
    (h : kv ∈ dictSet d k v) : kv = (k, v) ∨ kv ∈ d := by
  induction d with
  | nil => simpa [dictSet] using h
  | cons hd tl ih =>
    obtain ⟨k0, v0⟩ := hd
    by_cases hk : k0 = k
    · rw [show dictSet ((k0, v0) :: tl) k v = (k, v) :: tl from by simp [dictSet, hk]] at h
      rcases List.mem_cons.mp h with h | h
      · exact Or.inl h
      · exact Or.inr (List.mem_cons_of_mem _ h)
    · rw [show dictSet ((k0, v0) :: tl) k v = (k0, v0) :: dictSet tl k v from by
        simp [dictSet, hk]] at h
      rcases List.mem_cons.mp h with h | h
      · exact Or.inr (by simp [h])
      · rcases ih h with h | h
        · exact Or.inl h
        · exact Or.inr (List.mem_cons_of_mem _ h)

theorem mem_dictPop {α : Type} (d : List (String × α)) (k : String) (kv : String × α)
    (h : kv ∈ dictPop d k) : kv ∈ d := by
  induction d with
  | nil => simp [dictPop] at h
  | cons hd tl ih =>
    obtain ⟨k0, v0⟩ := hd
    by_cases hk : k0 = k
    · rw [show dictPop ((k0, v0) :: tl) k = dictPop tl k by simp [dictPop, hk]] at h
      exact List.mem_cons_of_mem _ (ih h)
    · rw [show dictPop ((k0, v0) :: tl) k = (k0, v0) :: dictPop tl k by simp [dictPop, hk]] at h
      rcases List.mem_cons.mp h with h | h
      · simp [h]
      · exact List.mem_cons_of_mem _ (ih h)

theorem mem_popAll (L : List String) (d : List (String × Value)) (kv : String × Value)
    (h : kv ∈ Frontend.popAll d L) : kv ∈ d := by
  induction L generalizing d with
  | nil => simpa [Frontend.popAll] using h
  | cons hd tl ih => exact mem_dictPop _ _ _ (ih _ h)

end DictLemmas

section ClauseLemmas

theorem isPrefixOf_cons_head {a : Char} {as bs : List Char}
    (h : (a :: as).isPrefixOf bs = true) : bs.head? = some a := by
  cases bs with
  | nil => simp [List.isPrefixOf] at h
  | cons b bs' =>
    simp only [List.isPrefixOf, Bool.and_eq_true, beq_iff_eq] at h
    simp [h.1]

theorem isDateClause_eq_false (c : String) (h : c.data.head? ≠ some '\x7b') :
    isDateClause c = false := by
  unfold isDateClause
  cases hp : ("\x7b!field f=dateRange".data.isPrefixOf c.data)
  · rfl
  · exact absurd (@isPrefixOf_cons_head '\x7b' "!field f=dateRange".data c.data hp) h

theorem clause_head (sn x : String) (hs : braceFree sn = true) :
    (sn ++ ":\"" ++ x ++ "\"").data.head? ≠ some '\x7b' := by
  have hd : (sn ++ ":\"" ++ x ++ "\"").data
      = sn.data ++ (':' :: '"' :: (x.data ++ ['"'])) := by
    simp only [String.data_append, List.append_assoc]
    rfl
  rw [hd]
  cases hc : sn.data with
  | nil => simp
  | cons a as =>
    have ha : a ≠ '\x7b' := by
      unfold braceFree at hs
      rw [hc] at hs
      simpa using hs
    simpa using ha

theorem isDateClause_clause (sn x : String) (hs : braceFree sn = true) :
    isDateClause (sn ++ ":\"" ++ x ++ "\"") = false :=
  isDateClause_eq_false _ (clause_head sn x hs)

theorem facetSCore_head (cs : List Char) (h : facetSCore cs = true) :
    cs.head? = some 'f' ∨ cs.head? = some 's' := by
  unfold facetSCore at h
  rcases Bool.or_eq_true_iff.mp h with h1 | h1
  · left
    have h2 := (Bool.and_eq_true _ _).mp ((Bool.and_eq_true _ _).mp h1).1
    exact @isPrefixOf_cons_head 'f' "acet-".data cs h2.1
  · right
    have h2 := (Bool.and_eq_true _ _).mp ((Bool.and_eq_true _ _).mp h1).1
    exact @isPrefixOf_cons_head 's' "-".data cs h2.1

theorem matchFacetOrS_braceFree (n : String) (h : matchFacetOrS n = true) :
    braceFree n = true := by
  unfold matchFacetOrS at h
  have hh : n.data.head? = some 'f' ∨ n.data.head? = some 's' := by
    rcases Bool.or_eq_true_iff.mp h with h1 | h1
    · exact facetSCore_head _ h1
    · have h2 := (Bool.and_eq_true _ _).mp h1
      have h3 := facetSCore_head _ h2.2
      cases hc : n.data with
      | nil => rw [hc] at h3; simp at h3
      | cons a as =>
        cases as with
        | nil =>
          rw [hc] at h3
          simp at h3
        | cons b bs =>
          rw [hc] at h3
          rw [List.dropLast_cons₂] at h3
          simpa using h3
  unfold braceFree
  cases hc : n.data with
  | nil => rfl
  | cons a as =>
    rw [hc] at hh
    simp only [List.head?_cons, Option.some.injEq] at hh
    have ha : a ≠ '\x7b' := by
      rcases hh with hh | hh <;> (subst hh; decide)
    simpa using ha

end ClauseLemmas

section LoopInvariants

theorem mem_dateHintsAux (date : String) (dps : List String) (np : Nat)
    (pairs : List (Nat × String)) (filt : List (String × String)) (kv : String × String)
    (h : kv ∈ Frontend.dateHintsAux date dps np pairs filt) :
    kv ∈ filt ∨ ∃ p ∈ pairs, kv.1 = Frontend.dateHintKey p.2 := by
  induction pairs generalizing filt with
  | nil => exact Or.inl h
  | cons hd tl ih =>
    obtain ⟨idx, field⟩ := hd
    rw [show Frontend.dateHintsAux date dps np ((idx, field) :: tl) filt
        = Frontend.dateHintsAux date dps np tl
            (dictSet filt (Frontend.dateHintKey field)
              (if np - 1 ≤ idx then stripQuotes date
               else stripQuotes (joinSep "::" (dps.take (idx + 1))))) from rfl] at h
    rcases ih _ h with h2 | h2
    · rcases mem_dictSet _ _ _ _ h2 with h3 | h3
      · right
        exact ⟨(idx, field), List.mem_cons_self _ _, by rw [h3]⟩
      · exact Or.inl h3
    · right
      obtain ⟨p, hp, hk⟩ := h2
      exact ⟨p, List.mem_cons_of_mem _ hp, hk⟩

theorem filtKeysOk_processDateValue (st : Frontend.LoopState) (d : String)
    (h : filtKeysOk st.filt) : filtKeysOk (Frontend.processDateValue st d).filt := by
  intro kv hkv
  have hm := mem_dateHintsAux _ _ _ _ _ _ hkv
  rcases hm with hm | hm
  · exact h kv hm
  · obtain ⟨p, hp, hk⟩ := hm
    have hp3 : p = (0, "facet-year") ∨ p = (1, "facet-year-month")
        ∨ p = (2, "facet-year-month-day") := by
      rw [show Frontend.fields.enum
          = [(0, "facet-year"), (1, "facet-year-month"), (2, "facet-year-month-day")] from rfl] at hp
      simpa using hp
    rcases hp3 with h1 | h1 | h1 <;> simp [hk, h1]

theorem stepOk_refl (st : Frontend.LoopState) : stepOk st st :=
  ⟨fun h => h, fun hb => ⟨hb, [], by simp, by simp⟩⟩

theorem stepOk_trans {s1 s2 s3 : Frontend.LoopState}
    (h12 : stepOk s1 s2) (h23 : stepOk s2 s3) : stepOk s1 s3 := by
  refine ⟨fun h => h23.1 (h12.1 h), fun hb => ?_⟩
  obtain ⟨hb2, e1, he1, hd1⟩ := h12.2 hb
  obtain ⟨hb3, e2, he2, hd2⟩ := h23.2 hb2
  refine ⟨hb3, e1 ++ e2, by rw [he2, he1, List.append_assoc], ?_⟩
  intro c hc
  rcases List.mem_append.mp hc with hc | hc
  · exact hd1 c hc
  · exact hd2 c hc

theorem stepOk_processDateValue (st : Frontend.LoopState) (d : String) :
    stepOk st (Frontend.processDateValue st d) := by
  constructor
  · exact fun h => filtKeysOk_processDateValue st d h
  · intro hb
    set sn := if (pySplitDC (stripQuotes d)).length = 1 then "facet-year"
      else if (pySplitDC (stripQuotes d)).length = 2 then "facet-year-month"
      else if (pySplitDC (stripQuotes d)).length = 3 then "facet-year-month-day"
      else st.solr_name with hsn
    have hbsn : braceFree sn = true := by
      rw [hsn]
      split
      · decide
      · split
        · decide
        · split
          · decide
          · exact hb
    refine ⟨hbsn, [sn ++ ":\"" ++ stripQuotes (stripQuotes d) ++ "\""], rfl, ?_⟩
    intro c hc
    rcases List.mem_singleton.mp hc with rfl
    exact isDateClause_clause _ _ hbsn

theorem stepOk_processDateValues (ds : List String) (st : Frontend.LoopState) :
    stepOk st (Frontend.processDateValues st ds) := by
  induction ds generalizing st with
  | nil => exact stepOk_refl st
  | cons d ds ih =>
    exact stepOk_trans (stepOk_processDateValue st d) (ih (Frontend.processDateValue st d))

theorem allowed_rewrite_braceFree :
    ∀ n ∈ Frontend.ALLOWED_FACETS, braceFree (legacyFacetRewrite n) = true := by decide

theorem stepOk_processParam (st st' : Frontend.LoopState) (n : String) (v : Value)
    (h : Frontend.processParam st n v = .ok st') : stepOk st st' := by
  unfold Frontend.processParam at h
  split at h
  · rcases h with ⟨rfl⟩
    exact ⟨fun hf => hf, fun hb => ⟨hb, [], by simp, by simp⟩⟩
  · split at h
    · rcases h with ⟨rfl⟩
      exact ⟨fun hf => hf, fun hb => ⟨hb, [], by simp, by simp⟩⟩
    · split at h
      · -- f<digits>-date branch
        split at h
        · exact absurd h (by simp)
        · rcases h with ⟨rfl⟩
          exact stepOk_processDateValues _ st
      · split at h
        · -- ALLOWED_FACETS branch
          rename_i hmem
          rcases h with ⟨rfl⟩
          refine ⟨fun hf => hf, fun hb => ?_⟩
          have hbsn : braceFree (legacyFacetRewrite n) = true := allowed_rewrite_braceFree n hmem
          refine ⟨hbsn, _, rfl, ?_⟩
          intro c hc
          obtain ⟨x, hx, rfl⟩ := List.mem_map.mp hc
          exact isDateClause_clause _ _ hbsn
        · split at h
          · -- facet-/s- branch
            rename_i hfs
            split at h
            · exact absurd h (by simp)
            · rcases h with ⟨rfl⟩
              refine ⟨fun hf => hf, fun hb => ?_⟩
              refine ⟨hb, _, rfl, ?_⟩
              intro c hc
              rcases List.mem_singleton.mp hc with rfl
              exact isDateClause_clause _ _ (matchFacetOrS_braceFree n hfs)
          · split at h
            · -- page branch
              split at h
              · exact absurd h (by simp)
              · split at h
                · exact absurd h (by simp)
                · rcases h with ⟨rfl⟩
                  exact ⟨fun hf => hf, fun hb => ⟨hb, [], by simp, by simp⟩⟩
            · split at h
              · -- sort branch
                split at h
                · split at h
                  · exact absurd h (by simp)
                  · rcases h with ⟨rfl⟩
                    exact ⟨fun hf => hf, fun hb =>
                      ⟨by simpa [Frontend.sortAssign] using hb, [],
                        by simp [Frontend.sortAssign], by simp⟩⟩
                · exact absurd h (by simp)
                · rcases h with ⟨rfl⟩
                  exact ⟨fun hf => hf, fun hb =>
                    ⟨by simpa [Frontend.sortAssign] using hb, [],
                      by simp [Frontend.sortAssign], by simp⟩⟩
              · split at h
                · rcases h with ⟨rfl⟩
                  exact stepOk_refl _
                · rcases h with ⟨rfl⟩
                  exact ⟨fun hf => hf, fun hb => ⟨hb, [], by simp, by simp⟩⟩

theorem stepOk_processParams (l : List (String × Value)) (st st' : Frontend.LoopState)
    (h : Frontend.processParams st l = .ok st') : stepOk st st' := by
  induction l generalizing st with
  | nil =>
    rcases h with ⟨rfl⟩
    exact stepOk_refl st'
  | cons hd tl ih =>
    obtain ⟨n, v⟩ := hd
    rw [show Frontend.processParams st ((n, v) :: tl)
        = if v.truthy then
            match Frontend.processParam st n v with
            | .ok st2 => Frontend.processParams st2 tl
            | .error e => .error e
          else Frontend.processParams st tl from rfl] at h
    by_cases ht : v.truthy = true
    · rw [if_pos ht] at h
      cases hp : Frontend.processParam st n v with
      | error e => rw [hp] at h; cases h
      | ok st2 =>
        rw [hp] at h
        exact stepOk_trans (stepOk_processParam st st2 n v hp) (ih st2 h)
    · rw [if_neg ht] at h
      exact ih st h

end LoopInvariants

section FinalizeLemmas

theorem dictGet_finalize_fq (st : Frontend.LoopState) (hf : filtKeysOk st.filt) :
    dictGet (Frontend.finalize st) "fq" = some (SolrVal.l st.fq) := by
  have hkeys : ∀ kv ∈ st.filt, kv.1 ≠ "fq" := by
    intro kv hkv
    rcases hf kv hkv with h | h | h <;> rw [h] <;> decide
  simp only [Frontend.finalize]
  rw [dictGet_popFold]
  rw [if_neg (by decide : ¬ ("fq" ∈ Frontend.solr_delete ++ Frontend.solr_fields))]
  rw [dictGet_setFold_ne _ _ _ hkeys]
  split <;> split <;> simp [dictGet_dictSet]

theorem isSome_dictGet_finalize_q (st : Frontend.LoopState) :
    (dictGet (Frontend.finalize st) "q").isSome = true := by
  simp only [Frontend.finalize]
  rw [dictGet_popFold]
  rw [if_neg (by decide : ¬ ("q" ∈ Frontend.solr_delete ++ Frontend.solr_fields))]
  apply isSome_dictGet_setFold
  split <;> split <;> simp [dictGet_dictSet]

theorem isSome_dictGet_finalize_fq (st : Frontend.LoopState) :
    (dictGet (Frontend.finalize st) "fq").isSome = true := by
  simp only [Frontend.finalize]
  rw [dictGet_popFold]
  rw [if_neg (by decide : ¬ ("fq" ∈ Frontend.solr_delete ++ Frontend.solr_fields))]
  apply isSome_dictGet_setFold
  split <;> split <;> simp [dictGet_dictSet]

theorem dictGet_finalize_reserved (st : Frontend.LoopState) (k : String)
    (hk : k ∈ Frontend.solr_delete ++ Frontend.solr_fields) :
    dictGet (Frontend.finalize st) k = none := by
  simp only [Frontend.finalize]
  rw [dictGet_popFold, if_pos hk]

theorem translate_params_ok (rt : String) (ps : List (String × Value))
    (m : List (String × SolrVal)) (h : Frontend.translate_params rt ps = .ok m) :
    ∃ st : Frontend.LoopState, m = Frontend.finalize st ∧
      ∃ fq0, Frontend.datePhase (Frontend.dateMinOf (Frontend.setParamsOf ps))
          (Frontend.dateMaxOf (Frontend.setParamsOf ps))
          (Frontend.get_obj_property "search-date-type" (Frontend.setParamsOf ps)) = .ok fq0 ∧
        Frontend.processParams (Frontend.LoopState.mk [] [] fq0 [] "")
          (Frontend.setParams2Of (Frontend.setParamsOf ps)
            (Frontend.dateMinOf (Frontend.setParamsOf ps))
            (Frontend.get_obj_property "search-date-type" (Frontend.setParamsOf ps))) = .ok st := by
  have h2 : (match Frontend.datePhase (Frontend.dateMinOf (Frontend.setParamsOf ps))
        (Frontend.dateMaxOf (Frontend.setParamsOf ps))
        (Frontend.get_obj_property "search-date-type" (Frontend.setParamsOf ps)) with
      | Except.error e => Except.error e
      | Except.ok fq0 =>
        match Frontend.processParams (Frontend.LoopState.mk [] [] fq0 [] "")
            (Frontend.setParams2Of (Frontend.setParamsOf ps)
              (Frontend.dateMinOf (Frontend.setParamsOf ps))
              (Frontend.get_obj_property "search-date-type" (Frontend.setParamsOf ps))) with
        | Except.error e => Except.error e
        | Except.ok st => Except.ok (Frontend.finalize st)) = Except.ok m := h
  clear h
  cases hd : Frontend.datePhase (Frontend.dateMinOf (Frontend.setParamsOf ps))
      (Frontend.dateMaxOf (Frontend.setParamsOf ps))
      (Frontend.get_obj_property "search-date-type" (Frontend.setParamsOf ps)) with
  | error e => rw [hd] at h2; simp only [] at h2; exact absurd h2 (by simp)
  | ok fq0 =>
    rw [hd] at h2
    simp only [] at h2
    cases hp : Frontend.processParams (Frontend.LoopState.mk [] [] fq0 [] "")
        (Frontend.setParams2Of (Frontend.setParamsOf ps)
          (Frontend.dateMinOf (Frontend.setParamsOf ps))
          (Frontend.get_obj_property "search-date-type" (Frontend.setParamsOf ps))) with
    | error e => rw [hp] at h2; simp only [] at h2; exact absurd h2 (by simp)
    | ok st =>
      rw [hp] at h2
      simp only [] at h2
      rcases h2 with ⟨rfl⟩
      exact ⟨st, rfl, fq0, rfl, hp⟩

end FinalizeLemmas

/-- C10: for every input on which `translate_params` returns, the returned
parameter map contains the keys `q` and `fq`, and contains none of the reserved
keys `text`, `keyword`, `sectionType`, `search-date-type`, `_text_`,
`content_textual-content`, `content_footnotes`, `content_summary`, which are
unconditionally removed after assembly. -/
theorem translate_params_q_fq_present_reserved_absent (rt : String)
    (ps : List (String × Value)) (m : List (String × SolrVal))
    (h : Frontend.translate_params rt ps = .ok m) :
    (dictGet m "q").isSome = true ∧ (dictGet m "fq").isSome = true ∧
      ∀ k ∈ (["text", "keyword", "sectionType", "search-date-type", "_text_",
        "content_textual-content", "content_footnotes", "content_summary"] : List String),
        dictGet m k = none := by
  obtain ⟨st, rfl, -⟩ := translate_params_ok rt ps m h
  refine ⟨isSome_dictGet_finalize_q st, isSome_dictGet_finalize_fq st, ?_⟩
  intro k hk
  apply dictGet_finalize_reserved
  simpa [Frontend.solr_delete, Frontend.solr_fields] using hk

/-- Witness for C10 at a concrete input. -/
theorem translate_params_q_fq_present_reserved_absent_witness :
    Frontend.translate_params "mscat" [("keyword", Value.vs "bede")]
        = Except.ok [("fq", SolrVal.l []), ("q", SolrVal.s "(bede)")]
      ∧ ((dictGet [("fq", SolrVal.l []), ("q", SolrVal.s "(bede)")] "q").isSome = true
        ∧ (dictGet [("fq", SolrVal.l []), ("q", SolrVal.s "(bede)")] "fq").isSome = true
        ∧ ∀ k ∈ (["text", "keyword", "sectionType", "search-date-type", "_text_",
            "content_textual-content", "content_footnotes", "content_summary"] : List String),
            dictGet [("fq", SolrVal.l []), ("q", SolrVal.s "(bede)")] k = none) :=
  ⟨rfl, translate_params_q_fq_present_reserved_absent "mscat" [("keyword", Value.vs "bede")]
    [("fq", SolrVal.l []), ("q", SolrVal.s "(bede)")] rfl⟩

/-- C3: counter-evidence for the legacy facet rewrite claim. The source's rewrite
`re.sub(r'^f[0-9]+-(.+?)$', r'facet-\1', name)` would map `f3-author_sm` to
`facet-author_sm`, but it sits inside the `name in ALLOWED_FACETS` branch, which
no `f<digits>-`-prefixed name can enter; the parameter therefore falls through to
the generic free-text branch, producing `f3-author_sm:("Bede")` in `q` and no
`fq` clause at all. -/
theorem legacy_facet_param_goes_to_free_text :
    Frontend.translate_params "mscat" [("f3-author_sm", Value.vl ["\"Bede\""])]
        = Except.ok [("fq", SolrVal.l []), ("q", SolrVal.s "f3-author_sm:(\"Bede\")")]
      ∧ legacyFacetRewrite "f3-author_sm" = "facet-author_sm" :=
  ⟨rfl, rfl⟩

/-- C6: the empty free-text clause is not normalised to `*`. The source's check
compares the joined clause against `"['*']"` and `"['']"` (the `str()` of
singleton lists), which the empty join `''` never equals, so an empty input
yields `q = ''` rather than the match-all token — contradicting the in-code
comment "Hack to ensure that empty q string or * returns all records". -/
theorem empty_query_not_normalized :
    Frontend.translate_params "mscat" []
        = Except.ok [("fq", SolrVal.l []), ("q", SolrVal.s "")]
      ∧ ("" : String) ≠ "*" :=
  ⟨rfl, by decide⟩

/-- C8: on `/items`, when `fq` is absent (`None`), the scan
`list(filter(r.match, fq))` raises `TypeError` instead of being guarded. -/
theorem items_absent_fq_raises (q : Option (List String)) (sort start : Option String)
    (rows : Option Int) :
    Api.get_items q none sort start rows = Except.error PyErr.typeError := rfl

/-- C9: for every resource type that does not trim (by one trailing `s`) to
`item` or `collection`, both variants of `delete_resource` issue no backend
request and return their module's internal error status code: the integer 500
in the frontend variant and the string '999' in the other. -/
theorem delete_unknown_resource_no_request (rt fid : String)
    (h1 : stripTrailingS rt ≠ "item") (h2 : stripTrailingS rt ≠ "collection") :
    Frontend.delete_resource rt fid
        = DeleteResult.internalError (StatusCode.intCode 500)
      ∧ Api.delete_resource rt fid
        = DeleteResult.internalError (StatusCode.strCode "999") := by
  constructor <;>
    simp [Frontend.delete_resource, Api.delete_resource, Frontend.get_core_name,
      Api.get_core_name, h1, h2, Frontend.INTERNAL_ERROR_STATUS_CODE,
      Api.INTERNAL_ERROR_STATUS_CODE]

/-- Witness for C9 at a concrete unknown resource type. -/
theorem delete_unknown_resource_no_request_witness :
    (stripTrailingS "documents" ≠ "item" ∧ stripTrailingS "documents" ≠ "collection")
      ∧ Frontend.delete_resource "documents" "MS-ADD-04004"
          = DeleteResult.internalError (StatusCode.intCode 500)
      ∧ Api.delete_resource "documents" "MS-ADD-04004"
          = DeleteResult.internalError (StatusCode.strCode "999") :=
  ⟨⟨by decide, by decide⟩,
    delete_unknown_resource_no_request "documents" "MS-ADD-04004" (by decide) (by decide)⟩

/-- C1 counterexample: `translate_params` does raise on some inputs. With only
`year=1300`, the date block reaches `search_date_type in 'after'` with
`search_date_type = None`, which raises `TypeError` in Python. -/
theorem translate_params_raises_on_bare_year :
    Frontend.translate_params "mscat" [("year", Value.vs "1300")]
      = Except.error PyErr.typeError := rfl

/-- C2 counterexample: with a min token and no max token, the claim's cases fail
on the code. When `search-date-type` is absent the compiler raises `TypeError`
instead of emitting a `Within` filter; and `search-date-type = 'aft'` (neither
`between`, `after` nor `before`) hits the substring check `in 'after'` and
produces an `Intersects` range filter, not a `Within` filter. -/
theorem exact_date_claim_fails :
    Frontend.translate_params "mscat" [("year", Value.vs "1300"), ("month", Value.vs "5")]
        = Except.error PyErr.typeError
      ∧ Frontend.translate_params "mscat"
          [("year", Value.vs "1300"), ("search-date-type", Value.vs "aft")]
        = Except.ok [("fq",
            SolrVal.l ["\x7b!field f=dateRange op=Intersects\x7d[1300 TO 2009-02-12]"]),
            ("q", SolrVal.s "")] :=
  ⟨rfl, rfl⟩

/-- C4 counterexample: a 2-part hierarchical date value sets a drilldown hint on
ALL three levels: the year level receives the 1-part prefix `1300`, while the
claim says the year level receives no hint. -/
theorem date_facet_year_level_hint_set :
    Frontend.translate_params "mscat" [("f1-date", Value.vl ["1300::05"])]
        = Except.ok [("fq", SolrVal.l ["facet-year-month:\"1300::05\""]),
            ("q", SolrVal.s ""),
            ("f.facet-year.facet.contains", SolrVal.s "1300"),
            ("f.facet-year-month.facet.contains", SolrVal.s "1300::05"),
            ("f.facet-year-month-day.facet.contains", SolrVal.s "1300::05")]
      ∧ dictGet [("fq", SolrVal.l ["facet-year-month:\"1300::05\""]),
            ("q", SolrVal.s ""),
            ("f.facet-year.facet.contains", SolrVal.s "1300"),
            ("f.facet-year-month.facet.contains", SolrVal.s "1300::05"),
            ("f.facet-year-month-day.facet.contains", SolrVal.s "1300::05")]
          "f.facet-year.facet.contains" ≠ none :=
  ⟨rfl, by decide⟩

/-- C5 counterexample: `generate_datestring` zero-pads the year as well (the
source applies `str(i).zfill(2)` to every component), so `year='5'` yields the
token `05`, not the unpadded `5` the claim describes. -/
theorem generate_datestring_pads_year :
    Frontend.generate_datestring (some (Value.vs "5")) none none = some "05"
      ∧ some ("05" : String) ≠ some ("5" : String) :=
  ⟨rfl, by decide⟩

/-- C7 counterexample: the collection-sort rewrite replaces only whitespace with
underscores (`re.sub(r'\s', '_', …)`), not every non-alphanumeric character: a
collection named `Books-of-Hours` keeps its hyphens in the rewritten sort field. -/
theorem collection_sort_keeps_hyphens :
    Api.get_items none (some ["collection:Books-of-Hours"]) (some "collection_sort asc")
        none none
        = Except.ok (Api.ItemsParams.mk none ["collection:Books-of-Hours"]
            (some "Books-of-Hours_sort asc") none 20 (some "collection_sort asc"))
      ∧ ("Books-of-Hours_sort asc" : String) ≠ "Books_of_Hours_sort asc" :=
  ⟨rfl, by decide⟩

/-- C4 (amended): for an `f<digits>-date` parameter whose (unquoted) value splits
on `::` into exactly two parts, the compiler appends a filter clause targeting
the year-month level for the value and sets facet-drilldown `contains` hints on
all three levels: the year level receives the 1-part prefix, while the
year-month and year-month-day levels receive the full value. -/
theorem date_facet_two_part_hints (rt : String) (d p1 p2 : String)
    (hq : stripQuotes d = d) (hq1 : stripQuotes p1 = p1)
    (hsplit : pySplitDC d = [p1, p2]) :
    Frontend.translate_params rt [("f1-date", Value.vl [d])]
      = Except.ok [("fq", SolrVal.l ["facet-year-month:\"" ++ d ++ "\""]),
          ("q", SolrVal.s ""),
          ("f.facet-year.facet.contains", SolrVal.s p1),
          ("f.facet-year-month.facet.contains", SolrVal.s d),
          ("f.facet-year-month-day.facet.contains", SolrVal.s d)] := by
  have step : Frontend.translate_params rt [("f1-date", Value.vl [d])]
      = Except.ok (Frontend.finalize
          (Frontend.processDateValue (Frontend.LoopState.mk [] [] [] [] "") d)) := rfl
  rw [step]
  have hpd : Frontend.processDateValue (Frontend.LoopState.mk [] [] [] [] "") d
      = Frontend.LoopState.mk [] [] ["facet-year-month:\"" ++ d ++ "\""]
          [("f.facet-year.facet.contains", p1),
           ("f.facet-year-month.facet.contains", d),
           ("f.facet-year-month-day.facet.contains", d)] "facet-year-month" := by
    simp only [Frontend.processDateValue, hq, hsplit]
    rw [show Frontend.fields.enum
        = [(0, "facet-year"), (1, "facet-year-month"), (2, "facet-year-month-day")] from rfl]
    simp [Frontend.dateHintsAux, Frontend.dateHintKey, dictSet, joinSep, hq, hq1]
  rw [hpd]
  rfl

/-- Witness for C4 at the concrete value `1300::05`. -/
theorem date_facet_two_part_hints_witness :
    Frontend.translate_params "mscat" [("f1-date", Value.vl ["1300::05"])]
      = Except.ok [("fq", SolrVal.l ["facet-year-month:\"1300::05\""]),
          ("q", SolrVal.s ""),
          ("f.facet-year.facet.contains", SolrVal.s "1300"),
          ("f.facet-year-month.facet.contains", SolrVal.s "1300::05"),
          ("f.facet-year-month-day.facet.contains", SolrVal.s "1300::05")] :=
  date_facet_two_part_hints "mscat" "1300::05" "1300" "05" rfl rfl rfl

/-- C5 (amended): `generate_datestring` implements the (amended) spec contract
`buildDateTokenSpec`: a token is produced exactly when the year is present and
truthy and it is not the case that the day is truthy while the month is absent
or falsy; all rendered components are zero-padded to two digits, the year
included; and in particular year=1300, month=None, day=12 yields no token. -/
theorem generate_datestring_meets_spec :
    (∀ year month day : Option Value,
      Frontend.generate_datestring year month day = buildDateTokenSpec year month day)
    ∧ Frontend.generate_datestring (some (Value.vs "1300")) none (some (Value.vs "12")) = none := by
  refine ⟨?_, rfl⟩
  intro year month day
  cases year with
  | none => rfl
  | some yv =>
    unfold Frontend.generate_datestring buildDateTokenSpec
    cases hy : yv.truthy with
    | false => simp [truthyOpt, hy]
    | true =>
      cases day with
      | none =>
        cases month with
        | none => simp [truthyOpt, hy]
        | some mv => simp [truthyOpt, hy]
      | some dv =>
        cases hd : dv.truthy with
        | false =>
          cases month with
          | none => simp [truthyOpt, hy, hd]
          | some mv => simp [truthyOpt, hy, hd]
        | true =>
          cases month with
          | none => simp [truthyOpt, hy, hd]
          | some mv =>
            cases hm : mv.truthy with
            | false => simp [truthyOpt, hy, hd, hm]
            | true => simp [truthyOpt, hy, hd, hm]

theorem isDateClause_dateClause (pred result : String) :
    isDateClause (Frontend.dateClause pred result) = true := by
  unfold isDateClause Frontend.dateClause
  rw [List.isPrefixOf_iff_prefix]
  have h2 : "\x7b!field f=dateRange op=".data
      <+: ("\x7b!field f=dateRange op=" ++ pred ++ "\x7d" ++ result).data := by
    simp only [String.data_append, List.append_assoc]
    exact List.prefix_append _ _
  exact List.IsPrefix.trans (by decide) h2

theorem datePhase_within (dm dmax : Option String) (sdt : Option Value) (tok t : String)
    (h1 : dm = some tok) (h2 : tok ≠ "") (h3 : strOptTruthy dmax = false)
    (h4 : sdt = some (Value.vs t)) (h5 : t ≠ "between") (h6 : t ≠ "before")
    (h7 : pyInStr t "after" = false) :
    Frontend.datePhase dm dmax sdt = .ok [Frontend.dateClause "Within" tok] := by
  subst h1
  subst h4
  have hst : strOptTruthy (some tok) = true := by simp [strOptTruthy, h2]
  unfold Frontend.datePhase
  rw [if_pos (Or.inl hst)]
  rw [if_neg (by
    rintro (hc | hc)
    · rw [h3] at hc; cases hc
    · simp only [Option.some.injEq, Value.vs.injEq] at hc
      exact h5 hc)]
  simp only []
  rw [if_neg (by rw [h7]; simp : ¬ pyInStr t "after" = true)]
  rw [if_neg h6]
  simp only [Option.getD_some]
  rw [if_neg h2]

/-- C2 (amended): for every input whose date components yield a dateMinToken but
no dateMaxToken and whose `search-date-type` is present as a single string that
is not `between`, not `before`, and not a contiguous substring of `after`
(e.g. `exact`), whenever the compiler returns a compiled map, that map's `fq`
contains exactly one date filter clause, with predicate `Within` on the literal
dateMinToken. -/
theorem exact_date_within_filter (rt : String) (ps : List (String × Value)) (tok t : String)
    (h1 : Frontend.dateMinOf (Frontend.setParamsOf ps) = some tok) (h2 : tok ≠ "")
    (h3 : strOptTruthy (Frontend.dateMaxOf (Frontend.setParamsOf ps)) = false)
    (h4 : Frontend.get_obj_property "search-date-type" (Frontend.setParamsOf ps)
        = some (Value.vs t))
    (h5 : t ≠ "between") (h6 : t ≠ "before") (h7 : pyInStr t "after" = false)
    (m : List (String × SolrVal)) (hm : Frontend.translate_params rt ps = .ok m) :
    dateFqClauses m = [Frontend.dateClause "Within" tok] := by
  obtain ⟨st, rfl, fq0, hdp, hpp⟩ := translate_params_ok rt ps m hm
  rw [datePhase_within _ _ _ tok t h1 h2 h3 h4 h5 h6 h7] at hdp
  have hfq0 : fq0 = [Frontend.dateClause "Within" tok] := by
    injection hdp with h
    exact h.symm
  subst hfq0
  have hstep := stepOk_processParams _ _ _ hpp
  have hfilt : filtKeysOk st.filt := hstep.1 (fun kv hkv => absurd hkv (List.not_mem_nil kv))
  obtain ⟨-, extra, hfq, hnd⟩ := hstep.2 (by rfl)
  unfold dateFqClauses
  rw [dictGet_finalize_fq st hfilt]
  simp only []
  rw [hfq]
  simp only [List.filter_append]
  rw [show List.filter isDateClause [Frontend.dateClause "Within" tok]
      = [Frontend.dateClause "Within" tok] from by
    simp [List.filter, isDateClause_dateClause]]
  rw [List.filter_eq_nil_iff.mpr (by
    intro c hc
    simp [hnd c hc])]
  simp

/-- Witness for C2 at year=1300, month=5, search-date-type=exact. -/
theorem exact_date_within_filter_witness :
    dateFqClauses [("fq", SolrVal.l ["\x7b!field f=dateRange op=Within\x7d1300-05"]),
        ("q", SolrVal.s "")]
      = ["\x7b!field f=dateRange op=Within\x7d1300-05"] :=
  exact_date_within_filter "mscat"
    [("year", Value.vs "1300"), ("month", Value.vs "5"), ("search-date-type", Value.vs "exact")]
    "1300-05" "exact" rfl (by decide) rfl rfl (by decide) (by decide) rfl
    [("fq", SolrVal.l ["\x7b!field f=dateRange op=Within\x7d1300-05"]), ("q", SolrVal.s "")] rfl

theorem reSubCollectionColon_append (cname : String) :
    Api.reSubCollectionColon ("collection:" ++ cname) = cname := by
  unfold Api.reSubCollectionColon
  have hp : "collection:".data.isPrefixOf ("collection:" ++ cname).data = true := by
    rw [String.data_append, List.isPrefixOf_iff_prefix]
    exact List.prefix_append _ _
  rw [if_pos hp]
  rw [String.data_append]
  rw [show (11 : Nat) = "collection:".data.length from rfl]
  rw [List.drop_left]

/-- C7 (amended): on `/items`, when the sort expression requests the synthetic
`collection_sort` field (with direction `asc` or `desc`) and a filter clause
`collection:<name>` is present in `fq`, the sort sent to the backend is
rewritten to the collection's identifier with every whitespace character
replaced by underscore and suffixed `_sort`, preserving the direction; the
unmodified sort expression is kept in `original_sort`, and `get_request`
restores it into the response's reported `sort` parameter. -/
theorem collection_sort_rewrite (qp : Option (List String)) (start : Option String)
    (rows : Option Int) (fqL : List String) (cname dir : String)
    (hdir : dir = "asc" ∨ dir = "desc")
    (hfq : (fqL.filter (fun c => strLeads "collection:" c)).head?
        = some ("collection:" ++ cname)) :
    Api.get_items qp (some fqL) (some ("collection_sort " ++ dir)) start rows
        = Except.ok (Api.ItemsParams.mk (qp.map (fun l => joinSep " AND " l)) fqL
            (some (Api.pyReplaceSpace cname ++ "_sort" ++ " " ++ dir)) start
            (Api.rowsFinal rows) (some ("collection_sort " ++ dir)))
      ∧ ∀ reported : List (String × Option String), (dictGet reported "sort").isSome = true →
          dictGet (Api.restore_reported_sort (some (some ("collection_sort " ++ dir))) reported)
            "sort" = some (some ("collection_sort " ++ dir)) := by
  constructor
  · have hs : Api.sortCalc (some ("collection_sort " ++ dir)) (some ("collection:" ++ cname))
        = (some (Api.pyReplaceSpace cname ++ "_sort" ++ " " ++ dir),
           some ("collection_sort " ++ dir)) := by
      rcases hdir with rfl | rfl
      · simp only [Api.sortCalc]
        rw [if_pos (by decide)]
        rw [if_pos (by decide)]
        rw [reSubCollectionColon_append]
        rw [show Api.reSubSortDirection ("collection_sort " ++ "asc") = "asc" from by decide]
      · simp only [Api.sortCalc]
        rw [if_pos (by decide)]
        rw [if_pos (by decide)]
        rw [reSubCollectionColon_append]
        rw [show Api.reSubSortDirection ("collection_sort " ++ "desc") = "desc" from by decide]
    simp only [Api.get_items]
    rw [hfq, hs]
  · intro reported hrep
    unfold Api.restore_reported_sort
    simp only []
    rw [if_pos hrep]
    rw [dictGet_dictSet]
    simp

/-- Witness for C7 at sort `collection_sort asc` with collection `Books of Hours`. -/
theorem collection_sort_rewrite_witness :
    ((("asc" : String) = "asc" ∨ ("asc" : String) = "desc")
      ∧ ((["collection:Books of Hours"].filter (fun c => strLeads "collection:" c)).head?
          = some ("collection:" ++ "Books of Hours")))
    ∧ Api.get_items none (some ["collection:Books of Hours"])
          (some ("collection_sort " ++ "asc")) none none
        = Except.ok (Api.ItemsParams.mk none ["collection:Books of Hours"]
            (some "Books_of_Hours_sort asc") none 20 (some "collection_sort asc"))
    ∧ dictGet (Api.restore_reported_sort (some (some ("collection_sort " ++ "asc")))
          [("sort", some "Books_of_Hours_sort asc")]) "sort"
        = some (some ("collection_sort " ++ "asc")) := by
  have h := collection_sort_rewrite none none none ["collection:Books of Hours"]
    "Books of Hours" "asc" (Or.inl rfl) (by decide)
  exact ⟨⟨Or.inl rfl, by decide⟩, h.1, h.2 [("sort", some "Books_of_Hours_sort asc")] rfl⟩

theorem datePhase_total (dm dmax : Option String) (sdt : Option Value)
    (hsafe : (strOptTruthy dm = true ∧ strOptTruthy dmax = false
        ∧ sdt ≠ some (Value.vs "between")) → sdtIsStr sdt = true) :
    ∃ fq0, Frontend.datePhase dm dmax sdt = .ok fq0 := by
  unfold Frontend.datePhase
  by_cases h1 : strOptTruthy dm = true ∨ sdt = some (Value.vs "between")
  · rw [if_pos h1]
    by_cases h2 : strOptTruthy dmax = true ∨ sdt = some (Value.vs "between")
    · rw [if_pos h2]
      exact ⟨_, rfl⟩
    · rw [if_neg h2]
      push_neg at h2
      have hss : sdtIsStr sdt = true := by
        apply hsafe
        refine ⟨?_, ?_, h2.2⟩
        · rcases h1 with h1 | h1
          · exact h1
          · exact absurd h1 h2.2
        · cases hx : strOptTruthy dmax
          · rfl
          · exact absurd hx h2.1
      cases sdt with
      | none => simp [sdtIsStr] at hss
      | some v =>
        cases v with
        | vl l => simp [sdtIsStr] at hss
        | vs t =>
          simp only []
          split
          · exact ⟨_, rfl⟩
          · split
            · exact ⟨_, rfl⟩
            · exact ⟨_, rfl⟩
  · rw [if_neg h1]
    exact ⟨_, rfl⟩

theorem safeDate_imp (ps : List (String × Value)) (hd : safeDate ps = true)
    (hc : strOptTruthy (Frontend.dateMinOf (Frontend.setParamsOf ps)) = true
      ∧ strOptTruthy (Frontend.dateMaxOf (Frontend.setParamsOf ps)) = false
      ∧ Frontend.get_obj_property "search-date-type" (Frontend.setParamsOf ps)
          ≠ some (Value.vs "between")) :
    sdtIsStr (Frontend.get_obj_property "search-date-type" (Frontend.setParamsOf ps)) = true := by
  unfold safeDate at hd
  rw [if_pos ⟨hc.1, by simp [hc.2.1], hc.2.2⟩] at hd
  exact hd

theorem processParam_total (st : Frontend.LoopState) (n : String) (v : Value)
    (ht : v.truthy = true) (hs : safeParam n v = true) :
    ∃ st', Frontend.processParam st n v = .ok st' := by
  unfold Frontend.processParam
  unfold safeParam at hs
  by_cases h1 : n ∈ Frontend.remap_fields
  · rw [if_pos h1]; exact ⟨_, rfl⟩
  · rw [if_neg h1]; rw [if_neg h1] at hs
    by_cases h2 : n = "keyword" ∨ n = "text"
    · rw [if_pos h2]; exact ⟨_, rfl⟩
    · rw [if_neg h2]; rw [if_neg h2] at hs
      by_cases h3 : matchFDateName n = true
      · rw [if_pos h3]; rw [if_pos h3] at hs
        cases v with
        | vs s => simp at hs
        | vl l => exact ⟨_, rfl⟩
      · rw [if_neg h3]; rw [if_neg h3] at hs
        by_cases h4 : n ∈ Frontend.ALLOWED_FACETS
        · rw [if_pos h4]; exact ⟨_, rfl⟩
        · rw [if_neg h4]; rw [if_neg h4] at hs
          by_cases h5 : matchFacetOrS n = true
          · rw [if_pos h5]; rw [if_pos h5] at hs
            cases v with
            | vl l => simp at hs
            | vs s => exact ⟨_, rfl⟩
          · rw [if_neg h5]; rw [if_neg h5] at hs
            by_cases h6 : n = "page"
            · rw [if_pos h6]; rw [if_pos h6] at hs
              cases v with
              | vl l => simp at hs
              | vs s =>
                have hs2 : (pyInt s).isSome = true := hs
                simp only []
                cases hp : pyInt s with
                | none => rw [hp] at hs2; simp at hs2
                | some p => exact ⟨_, rfl⟩
            · rw [if_neg h6]
              by_cases h7 : n = "sort"
              · rw [if_pos h7]
                cases v with
                | vs s =>
                  have hne : s ≠ "" := by
                    intro he
                    rw [he] at ht
                    simp [Value.truthy] at ht
                  have hn : s.data ≠ [] := by
                    intro hnil
                    apply hne
                    cases s with
                    | mk data =>
                      simp only [] at hnil
                      rw [show ("" : String) = String.mk [] from rfl]
                      exact congrArg String.mk hnil
                  simp only []
                  cases hc : s.data with
                  | nil => exact absurd hc hn
                  | cons c cs => exact ⟨_, rfl⟩
                | vl l =>
                  cases l with
                  | nil => simp [Value.truthy] at ht
                  | cons x xs => exact ⟨_, rfl⟩
              · rw [if_neg h7]
                by_cases h8 : n = "rows"
                · rw [if_pos h8]; exact ⟨_, rfl⟩
                · rw [if_neg h8]; exact ⟨_, rfl⟩

theorem processParams_total (l : List (String × Value)) (st : Frontend.LoopState)
    (h : ∀ nv ∈ l, safeParam nv.1 nv.2 = true) :
    ∃ st', Frontend.processParams st l = .ok st' := by
  induction l generalizing st with
  | nil => exact ⟨st, rfl⟩
  | cons hd tl ih =>
    obtain ⟨n, v⟩ := hd
    rw [show Frontend.processParams st ((n, v) :: tl)
        = if v.truthy then
            match Frontend.processParam st n v with
            | .ok st2 => Frontend.processParams st2 tl
            | .error e => .error e
          else Frontend.processParams st tl from rfl]
    by_cases ht : v.truthy = true
    · rw [if_pos ht]
      obtain ⟨st2, hst2⟩ := processParam_total st n v ht (h (n, v) (List.mem_cons_self _ _))
      rw [hst2]
      exact ih st2 (fun nv hm => h nv (List.mem_cons_of_mem _ hm))
    · rw [if_neg ht]
      exact ih st (fun nv hm => h nv (List.mem_cons_of_mem _ hm))

/-- C1 (amended): `translate_params` returns a compiled parameter map without
raising for every input such that (a) whenever the date components yield a min
token but no max token and `search-date-type` is not `between`, the
`search-date-type` parameter is present with a single string value, (b) every
`f<digits>-date` value is a list, (c) every `facet-`/`s-` value is a single
string, and (d) every `page` value is a single string that parses as an
integer; all other malformed or unrecognized parameters degrade to the generic
equality-clause branch of the free-text query. -/
theorem translate_params_total (rt : String) (ps : List (String × Value))
    (hd : safeDate ps = true) (hp : ∀ nv ∈ ps, safeParam nv.1 nv.2 = true) :
    exceptOk (Frontend.translate_params rt ps) = true := by
  obtain ⟨fq0, hfq0⟩ := datePhase_total (Frontend.dateMinOf (Frontend.setParamsOf ps))
    (Frontend.dateMaxOf (Frontend.setParamsOf ps))
    (Frontend.get_obj_property "search-date-type" (Frontend.setParamsOf ps))
    (safeDate_imp ps hd)
  have hmem : ∀ nv ∈ Frontend.setParams2Of (Frontend.setParamsOf ps)
      (Frontend.dateMinOf (Frontend.setParamsOf ps))
      (Frontend.get_obj_property "search-date-type" (Frontend.setParamsOf ps)),
      safeParam nv.1 nv.2 = true := by
    intro nv hm
    apply hp
    have hm2 : nv ∈ Frontend.setParamsOf ps := by
      unfold Frontend.setParams2Of at hm
      split at hm
      · exact mem_popAll _ _ _ hm
      · exact mem_dictPop _ _ _ hm
    unfold Frontend.setParamsOf at hm2
    exact (List.mem_filter.mp hm2).1
  obtain ⟨st', hst'⟩ := processParams_total _ (Frontend.LoopState.mk [] [] fq0 [] "") hmem
  have key : Frontend.translate_params rt ps
      = (match Frontend.datePhase (Frontend.dateMinOf (Frontend.setParamsOf ps))
            (Frontend.dateMaxOf (Frontend.setParamsOf ps))
            (Frontend.get_obj_property "search-date-type" (Frontend.setParamsOf ps)) with
        | Except.error e => Except.error e
        | Except.ok fq0 =>
          match Frontend.processParams (Frontend.LoopState.mk [] [] fq0 [] "")
              (Frontend.setParams2Of (Frontend.setParamsOf ps)
                (Frontend.dateMinOf (Frontend.setParamsOf ps))
                (Frontend.get_obj_property "search-date-type" (Frontend.setParamsOf ps))) with
          | Except.error e => Except.error e
          | Except.ok st => Except.ok (Frontend.finalize st)) := rfl
  rw [key, hfq0]
  simp only []
  rw [hst']
  rfl

/-- Witness for C1 at a concrete well-formed input exercising the date block,
a hierarchical date facet, a site facet, paging and a keyword. -/
theorem translate_params_total_witness :
    (safeDate [("keyword", Value.vl ["bede"]), ("page", Value.vs "3"),
        ("f1-date", Value.vl ["1300"]), ("s-foo", Value.vs "bar"),
        ("year", Value.vs "1300"), ("search-date-type", Value.vs "exact")] = true
      ∧ ∀ nv ∈ ([("keyword", Value.vl ["bede"]), ("page", Value.vs "3"),
          ("f1-date", Value.vl ["1300"]), ("s-foo", Value.vs "bar"),
          ("year", Value.vs "1300"), ("search-date-type", Value.vs "exact")]
            : List (String × Value)), safeParam nv.1 nv.2 = true)
    ∧ exceptOk (Frontend.translate_params "mscat"
        [("keyword", Value.vl ["bede"]), ("page", Value.vs "3"),
         ("f1-date", Value.vl ["1300"]), ("s-foo", Value.vs "bar"),
         ("year", Value.vs "1300"), ("search-date-type", Value.vs "exact")]) = true :=
  ⟨⟨by decide, by decide⟩,
    translate_params_total "mscat"
      [("keyword", Value.vl ["bede"]), ("page", Value.vs "3"),
       ("f1-date", Value.vl ["1300"]), ("s-foo", Value.vs "bar"),
       ("year", Value.vs "1300"), ("search-date-type", Value.vs "exact")]
      (by decide) (by decide)⟩
